import Mathlib

/-!
# ossimDtedElevationDatabase

A shallow embedding of `src/elevation/ossimDtedElevationDatabase.cpp`: the DTED
tile locator with its single-slot handler cache.

* C++ `int` is a Lean `Int` reduced with `wrap32` wherever the source can overflow.
* `ossimString` / `ossimFilename` are Lean strings, one `Char` per C++ `char`, so
  `size()` is `String.length`.
* `double` heights are values of `Dbl` (NaN, the two infinities, or a finite rational);
  point coordinates are finite and therefore rationals.
* Every stateful member function is a pure function from the database state (and the
  collaborators it talks to) to a result and a new state.  The ghost field `trace`
  records, in program order, the calls the source makes on tile handlers, on the handler
  factory, on the geoid, on directories and on the preference store, and the references
  the slot `m_lastHandler` takes and drops.
-/

/-! ## Machine integers and stream formatting -/

/-- Two's-complement reduction of a mathematical integer to a 32 bit `int`. -/
def wrap32 (i : Int) : Int := (i + 2147483648) % 4294967296 - 2147483648

/-- The `abs(int)` of `<cstdlib>`: negate when negative, in 32 bit arithmetic (so
`abs(INT_MIN)` is `INT_MIN`, as on every two's-complement target). -/
def absInt (i : Int) : Int := if i < 0 then wrap32 (-i) else i

/-- The characters `s << std::setfill(fill) << std::setw(w) << i` appends for an `int`:
the decimal text of `i` (with a leading minus sign when negative), padded on the left
with `fill` up to width `w`. -/
def ostreamInt (fill : Char) (w : Nat) (i : Int) : String :=
  let body := if i < 0 then "-" ++ Nat.repr i.natAbs else Nat.repr i.natAbs
  String.mk (List.replicate (w - body.length) fill) ++ body

/-! ## Points, doubles, file names -/

/-- An `ossimGpt` with finite coordinates, in degrees. -/
structure ossimGpt where
  latd : ℚ
  lond : ℚ
  deriving DecidableEq

/-- An IEEE-754 `double`: NaN, plus or minus infinity, or a finite value. -/
inductive Dbl where
  | nan
  | pinf
  | ninf
  | fin (q : ℚ)
  deriving DecidableEq

/-- The value `ossim::nan()`. -/
def ossimNan : Dbl := Dbl.nan

/-- The `!=` of two doubles: true as soon as one operand is NaN. -/
def Dbl.ne : Dbl → Dbl → Bool
  | .nan, _ => true
  | _, .nan => true
  | a, b => decide (a ≠ b)

/-- The `+` of two doubles; `rnd` rounds the exact sum of two finite operands. -/
def Dbl.add (rnd : ℚ → Dbl) : Dbl → Dbl → Dbl
  | .nan, _ => .nan
  | _, .nan => .nan
  | .pinf, .ninf => .nan
  | .ninf, .pinf => .nan
  | .pinf, _ => .pinf
  | _, .pinf => .pinf
  | .ninf, _ => .ninf
  | _, .ninf => .ninf
  | .fin a, .fin b => rnd (a + b)

/-- Modelled from the spec: `ossimFilename::dirCat` is not part of the sources at hand.
"full path = root directory joined with subdirectory joined with file name", with the
separator of the spec's example `E005/S03.dt1`. -/
def dirCat (dir file : String) : String := dir ++ "/" ++ file

/-- Modelled from the spec: `ossimFilename::ext` is not part of the sources at hand.
The extension of a file name is the text after its last dot (empty without a dot). -/
def fileExt (f : String) : String :=
  if f.data.contains '.' then
    String.mk ((f.data.reverse.takeWhile (fun c => c != '.')).reverse)
  else ""

/-- Modelled from the spec: `ossimFilename::file` is not part of the sources at hand.
"Discard any full path": the text after the last path separator. -/
def fileOnly (f : String) : String :=
  String.mk ((f.data.reverse.takeWhile (fun c => c != '/')).reverse)

/-! ## Collaborators -/

/-- Identity of an `ossimElevCellHandler` object. -/
abbrev CellHandler := Nat

/-- Identity of an `ossimGeoid` object. -/
abbrev Geoid := Nat

/-- The payload of an `ossimElevationAccuracyInfo`. -/
abbrev ossimElevationAccuracyInfo := List ℚ

/-- An `ossimKeywordlist`. -/
abbrev ossimKeywordlist := List (String × String)

/-- A file met by `d2.getFirst(f, OSSIM_DIR_FILES)` / `d2.getNext(f)`: its path and what
`ossimDtedHandler::open(f, false)` makes of it (`some spacing` when it opens, the
spacing being the handler's `getMeanSpacingMeters()`). -/
structure TileFile where
  path : String
  tile : Option Dbl
  deriving DecidableEq

/-- A directory entry met by `od.getFirst(f, OSSIM_DIR_DIRS)` / `od.getNext(f)`: its
path, and the files `d2` enumerates in it (`none` when `d2.open(f)` fails). -/
structure SubDir where
  path : String
  files : Option (List TileFile)
  deriving DecidableEq

/-- A collaborator call made by the database, as written in the source. -/
inductive Event where
  | pointHasCoverage (h : CellHandler) (p : ossimGpt)
  | handlerHeight (h : CellHandler) (p : ossimGpt)
  | handlerAccuracy (h : CellHandler) (p : ossimGpt)
  | getOrCreateCellHandler (p : ossimGpt)
  | slotTakes (h : CellHandler)
  | slotDrops (h : CellHandler)
  | getOffsetFromEllipsoid (p : ossimGpt)
  | isDir (path : String)
  | dirOpen (path : String)
  | tileOpen (path : Option String)
  | handlerClose (path : Option String)
  | findGeoid
  | findKey (pfx key : String)
  | baseLoadState
  deriving DecidableEq

/-- The state inherited from `ossimElevationCellDatabase`; `cells` stands for the
members this file never names (the base class's own cell map among them). -/
structure ossimElevationCellDatabase (B : Type) where
  cells : B
  enabled : Bool
  m_connectionString : String
  m_meanSpacing : Dbl
  m_geoid : Option Geoid
  m_memoryMapCellsFlag : Bool

/-- The state of an `ossimDtedElevationDatabase`. -/
structure ossimDtedElevationDatabase (B : Type) where
  base : ossimElevationCellDatabase B
  m_extension : String
  m_upcase : Bool
  m_lastHandler : Option CellHandler
  trace : List Event

/-- Everything the database calls that lives outside this file. -/
structure Collab (B : Type) where
  /-- Method `ossimElevCellHandler::pointHasCoverage` -/
  pointHasCoverage : CellHandler → ossimGpt → Bool
  /-- Method `ossimElevCellHandler::getHeightAboveMSL` -/
  handlerHeight : CellHandler → ossimGpt → Dbl
  /-- Method `ossimElevCellHandler::getAccuracyInfo` -/
  handlerAccuracy : CellHandler → ossimElevationAccuracyInfo → ossimGpt →
    ossimElevationAccuracyInfo × Bool
  /-- Expression `new ossimDtedHandler(f, memoryMap)`, `none` when `getErrorStatus()` is set -/
  newDtedHandler : String → Bool → Option CellHandler
  /-- Method `ossimElevationCellDatabase::getOrCreateCellHandler`, which may call the virtual
  `createCell` it is handed -/
  getOrCreateCellHandler : ossimElevationCellDatabase B → (ossimGpt → Option CellHandler) →
    ossimGpt → Option CellHandler × ossimElevationCellDatabase B
  /-- Method `ossimElevationDatabase::getOffsetFromEllipsoid` -/
  getOffsetFromEllipsoid : ossimElevationCellDatabase B → ossimGpt → Dbl
  /-- Rounding of an exact sum to a double -/
  rnd : ℚ → Dbl
  /-- Method `ossimFilename::isDir` -/
  isDir : String → Bool
  /-- Method `ossimFilename::exists` -/
  pathExists : String → Bool
  /-- Method `ossimDirectory::open` on a path followed by the enumeration of its
  subdirectories; `none` when the open fails -/
  readDir : String → Option (List SubDir)
  /-- Method `ossimGeoidManager::findGeoidByShortName` -/
  findGeoidByShortName : String → Bool → Option Geoid
  /-- Lookup `ossimPreferences::instance()->preferencesKWL().findKey` -/
  findKey : String → String → String
  /-- Method `ossimString::toBool` -/
  toBool : String → Bool
  /-- Method `ossimElevationCellDatabase::loadState` -/
  baseLoadState : ossimElevationCellDatabase B → ossimKeywordlist → Option String →
    ossimElevationCellDatabase B × Bool

namespace ossimDtedElevationDatabase

variable {B : Type}

/-- Append collaborator calls to the trace. -/
def log (db : ossimDtedElevationDatabase B) (es : List Event) : ossimDtedElevationDatabase B :=
  { db with trace := db.trace ++ es }

/-- The default constructor (lines 14-21), over a default-constructed base. -/
def construct (b : ossimElevationCellDatabase B) : ossimDtedElevationDatabase B :=
  { base := b, m_extension := "", m_upcase := false, m_lastHandler := none, trace := [] }

/-- The copy constructor (lines 23-30): the handler slot is not copied. -/
def copy (rhs : ossimDtedElevationDatabase B) : ossimDtedElevationDatabase B :=
  { base := rhs.base, m_extension := rhs.m_extension, m_upcase := rhs.m_upcase,
    m_lastHandler := none, trace := rhs.trace }

/-- The body of `createRelativePath` (lines 152-190). -/
def createRelativePath (m_extension : String) (m_upcase : Bool) (gpt : ossimGpt) : String :=
  let ilon : Int := wrap32 (Rat.floor gpt.lond)
  let lon : String := if ilon < 0 then (if m_upcase then "W" else "w")
                      else (if m_upcase then "E" else "e")
  let ilon := absInt ilon
  let lon := lon ++ ostreamInt '0' 3 ilon
  let ilat : Int := wrap32 (Rat.floor gpt.latd)
  let lat : String := if ilat < 0 then (if m_upcase then "S" else "s")
                      else (if m_upcase then "N" else "n")
  let ilat := absInt ilat
  let lat := lat ++ ostreamInt '0' 2 ilat
  dirCat lon (lat ++ m_extension)

/-- Modelled from the spec: `ossimElevationCellDatabase::createFullPath` is not part of
the sources at hand.  "full path = root directory joined with subdirectory joined with
file name". -/
def createFullPath (db : ossimDtedElevationDatabase B) (gpt : ossimGpt) : String :=
  dirCat db.base.m_connectionString (createRelativePath db.m_extension db.m_upcase gpt)

/-- The body of `createCell` (lines 192-206). -/
def createCell (env : Collab B) (db : ossimDtedElevationDatabase B) (gpt : ossimGpt) :
    Option CellHandler :=
  let f := createFullPath db gpt
  if env.pathExists f then env.newDtedHandler f db.base.m_memoryMapCellsFlag else none

/-- Modelled from the spec: `ossimRefPtr::operator=` is not part of the sources at hand.
"replacement releases the previous handle only after the new one is installed": nothing
happens when the slot is assigned the pointer it already holds; otherwise the slot takes a
reference to the new handler (if there is one) and then drops its reference to the
displaced handler (if there was one), which destroys that handler when no one else still
refers to it.  No `close()` is called. -/
def assignEvents (old new : Option CellHandler) : List Event :=
  if old = new then []
  else (new.map Event.slotTakes).toList ++ (old.map Event.slotDrops).toList

/-- Lines 54-56 of `getHeightAboveMSL`: the slot is assigned what the factory returns,
and a valid new handler answers the query. -/
def replaceHandler (env : Collab B) (db : ossimDtedElevationDatabase B) (gpt : ossimGpt) :
    Dbl × ossimDtedElevationDatabase B :=
  let r := env.getOrCreateCellHandler db.base (createCell env db) gpt
  let db1 := ({ db with base := r.2, m_lastHandler := r.1 }).log
    (Event.getOrCreateCellHandler gpt :: assignEvents db.m_lastHandler r.1)
  match r.1 with
  | some h => (env.handlerHeight h gpt, db1.log [Event.handlerHeight h gpt])
  | none => (ossimNan, db1)

/-- The body of `getHeightAboveMSL` (lines 42-60). -/
def getHeightAboveMSL (env : Collab B) (db : ossimDtedElevationDatabase B) (gpt : ossimGpt) :
    Dbl × ossimDtedElevationDatabase B :=
  if !db.base.enabled then (ossimNan, db)
  else
    match db.m_lastHandler with
    | some h =>
      if env.pointHasCoverage h gpt then
        (env.handlerHeight h gpt,
          db.log [Event.pointHasCoverage h gpt, Event.handlerHeight h gpt])
      else replaceHandler env (db.log [Event.pointHasCoverage h gpt]) gpt
    | none => replaceHandler env db gpt

/-- The body of `getHeightAboveEllipsoid` (lines 62-73). -/
def getHeightAboveEllipsoid (env : Collab B) (db : ossimDtedElevationDatabase B)
    (gpt : ossimGpt) : Dbl × ossimDtedElevationDatabase B :=
  let r := getHeightAboveMSL env db gpt
  if Dbl.ne r.1 ossimNan then
    let offset := env.getOffsetFromEllipsoid r.2.base gpt
    (Dbl.add env.rnd r.1 offset, r.2.log [Event.getOffsetFromEllipsoid gpt])
  else r

/-- The body of `getAccuracyInfo` (lines 136-150); the first component is the returned
flag together with the `info` argument as the call leaves it. -/
def getAccuracyInfo (env : Collab B) (db : ossimDtedElevationDatabase B)
    (info : ossimElevationAccuracyInfo) (gpt : ossimGpt) :
    (Bool × ossimElevationAccuracyInfo) × ossimDtedElevationDatabase B :=
  let r := env.getOrCreateCellHandler db.base (createCell env db) gpt
  let db1 := ({ db with base := r.2 }).log [Event.getOrCreateCellHandler gpt]
  match r.1 with
  | some h =>
    let a := env.handlerAccuracy h info gpt
    ((a.2, a.1), db1.log [Event.handlerAccuracy h gpt])
  | none => ((false, info), db1)

/-- The longitude-subdirectory test of lines 322-326 on `fileOnly`. -/
def foundCell (name : String) : Bool :=
  (name.data.head? == some 'e' || name.data.head? == some 'w' ||
    name.data.head? == some 'E' || name.data.head? == some 'W') && name.length == 4

/-- One pass of the inner `do` body (lines 339-354) on the file name `f` currently
holds.  `f = none` is the pass made when `d2.getFirst` produced no file: `f` then names
no tile file and the handler's `open` fails. -/
def tryTile (db : ossimDtedElevationDatabase B) (dir : String) (f : Option TileFile) :
    Bool × ossimDtedElevationDatabase B :=
  let db1 := db.log [Event.tileOpen (f.map TileFile.path)]
  match f with
  | some t =>
    match t.tile with
    | some spacing =>
      (true, ({ db1 with
                m_extension := "." ++ fileExt t.path,
                base := { db1.base with m_connectionString := dir, m_meanSpacing := spacing } }).log
              [Event.handlerClose (some t.path)])
    | none => (false, db1.log [Event.handlerClose (some t.path)])
  | none => (false, db1.log [Event.handlerClose none])

/-- The inner `do ... while(!result&&d2.getNext(f)&&(count2 < maxCount2))` loop
(lines 337-355): `f` is the current file, `rest` what `d2.getNext` has yet to deliver. -/
def scanFiles (db : ossimDtedElevationDatabase B) (dir : String) (f : Option TileFile)
    (rest : List TileFile) (count2 : Nat) : Bool × ossimDtedElevationDatabase B :=
  let r := tryTile db dir f
  let count2 := count2 + 1
  if r.1 then r
  else
    match rest with
    | [] => r
    | g :: rest1 => if count2 < 10 then scanFiles r.2 dir (some g) rest1 count2 else r

/-- One pass of the outer `do` body (lines 308-358) on the entry `f` currently holds;
`f = none` is the pass made when `od.getFirst` produced no entry and `f` is still the
empty file name. -/
def scanEntry (env : Collab B) (db : ossimDtedElevationDatabase B) (dir : String)
    (f : Option SubDir) : Bool × ossimDtedElevationDatabase B :=
  let path := (f.map SubDir.path).getD ""
  let db1 := db.log [Event.isDir path]
  if env.isDir path then
    if foundCell (fileOnly path) then
      let db2 := db1.log [Event.dirOpen path]
      match f.bind SubDir.files with
      | some files => scanFiles db2 dir files.head? files.tail 0
      | none => (false, db2)
    else (false, db1)
  else (false, db1)

/-- The outer `do ... while(!result&&(od.getNext(f))&&(count < maxCount))` loop
(lines 306-359). -/
def scanDirs (env : Collab B) (db : ossimDtedElevationDatabase B) (dir : String)
    (f : Option SubDir) (rest : List SubDir) (count : Nat) :
    Bool × ossimDtedElevationDatabase B :=
  let count := count + 1
  let r := scanEntry env db dir f
  if r.1 then r
  else
    match rest with
    | [] => r
    | g :: rest1 => if count < 10 then scanDirs env r.2 dir (some g) rest1 count else r

/-- The body of `inititializeExtension` (lines 293-364). -/
def inititializeExtension (env : Collab B) (db : ossimDtedElevationDatabase B) (dir : String) :
    Bool × ossimDtedElevationDatabase B :=
  let db1 := db.log [Event.dirOpen dir]
  match env.readDir dir with
  | some entries => scanDirs env db1 dir entries.head? entries.tail 0
  | none => (false, db1)

/-- The body of `openDtedDirectory` (lines 84-134), trace output left out. -/
def openDtedDirectory (env : Collab B) (db : ossimDtedElevationDatabase B) (dir : String) :
    Bool × ossimDtedElevationDatabase B :=
  let db0 := db.log [Event.isDir dir]
  if env.isDir dir then
    let r := if db0.m_extension.length == 0 then inititializeExtension env db0 dir
             else (true, db0)
    let db2 :=
      if r.2.base.m_geoid.isNone then
        ({ r.2 with base := { r.2.base with
              m_geoid := env.findGeoidByShortName "geoid1996" false } }).log [Event.findGeoid]
      else r.2
    (r.1, db2)
  else (false, db0)

/-- The body of `open` (lines 74-82). -/
def open_ (env : Collab B) (db : ossimDtedElevationDatabase B) (connectionString : String) :
    Bool × ossimDtedElevationDatabase B :=
  openDtedDirectory env db connectionString

/-- The body of `loadState` (lines 208-272), trace output left out. -/
def loadState (env : Collab B) (db : ossimDtedElevationDatabase B) (kwl : ossimKeywordlist)
    (pfx : Option String) : Bool × ossimDtedElevationDatabase B :=
  let b := env.baseLoadState db.base kwl pfx
  let db0 := ({ db with base := b.1 }).log [Event.baseLoadState]
  if b.2 then
    let conn := db0.base.m_connectionString
    if conn.length != 0 && env.pathExists conn then
      let db1 := db0
      let pref := pfx.getD ""
      let val := env.findKey pref "extension"
      let db2 := db1.log [Event.findKey pref "extension"]
      let db3 :=
        if val.length != 0 then
          if val.data.head? != some '.' then { db2 with m_extension := "." ++ val }
          else { db2 with m_extension := val }
        else db2
      let val := env.findKey pref "upcase"
      let db4 := db3.log [Event.findKey pref "upcase"]
      let db5 := if val.length != 0 then { db4 with m_upcase := env.toBool val } else db4
      open_ env db5 db5.base.m_connectionString
    else (false, db0)
  else (false, db0)

end ossimDtedElevationDatabase

/-! ## Observations on traces -/

/-- Number of calls made to the handler factory. -/
def factoryCalls (t : List Event) : Nat :=
  (t.filter (fun e => match e with
    | Event.getOrCreateCellHandler _ => true
    | _ => false)).length

/-- Number of `close()` calls made on handlers. -/
def closeCalls (t : List Event) : Nat :=
  (t.filter (fun e => match e with
    | Event.handlerClose _ => true
    | _ => false)).length

/-- Number of references the slot `m_lastHandler` has taken. -/
def takeCount (t : List Event) : Nat :=
  (t.filter (fun e => match e with
    | Event.slotTakes _ => true
    | _ => false)).length

/-- Number of references the slot `m_lastHandler` has dropped. -/
def dropCount (t : List Event) : Nat :=
  (t.filter (fun e => match e with
    | Event.slotDrops _ => true
    | _ => false)).length

/-- Number of handlers a slot holds: one or none. -/
def occupied (slot : Option CellHandler) : Nat := if slot.isSome then 1 else 0

/-- The files of the listing the tile handler was asked to open, in order. -/
def attempted (t : List Event) : List String :=
  t.filterMap (fun e => match e with
    | Event.tileOpen (some p) => some p
    | _ => none)

/-- The paths tested with `isDir`, in order. -/
def examined (t : List Event) : List String :=
  t.filterMap (fun e => match e with
    | Event.isDir p => some p
    | _ => none)

/-- The directories opened for enumeration, in order. -/
def entered (t : List Event) : List String :=
  t.filterMap (fun e => match e with
    | Event.dirOpen p => some p
    | _ => none)

/-! ## The words of the specification -/

/-- Spec 4.1: the decimal digits of `n`, zero-padded on the left to at least `w` digits. -/
def zeroPadded (w n : Nat) : String :=
  String.mk (List.replicate (w - (Nat.toDigits 10 n).length) '0' ++ Nat.toDigits 10 n)

/-- Spec 4.1: the relative path of the cell with longitude index `ilon` and latitude index
`ilat`: hemisphere letter and padded magnitude of the longitude as the directory, hemisphere
letter, padded magnitude of the latitude and the extension as the file. -/
def specRelativePath (ext : String) (upcase : Bool) (ilon ilat : Int) : String :=
  dirCat
    ((if ilon < 0 then (if upcase then "W" else "w") else (if upcase then "E" else "e"))
      ++ zeroPadded 3 ilon.natAbs)
    ((if ilat < 0 then (if upcase then "S" else "s") else (if upcase then "N" else "n"))
      ++ zeroPadded 2 ilat.natAbs ++ ext)

/-- Spec 4.2: the longitude-subdirectory pattern, "first character in {e,E,w,W} and exactly
4 characters long". -/
def lonPattern (name : String) : Bool :=
  match name.data with
  | [c, _, _, _] => c == 'e' || c == 'E' || c == 'w' || c == 'W'
  | _ => false

/-- Spec 4.2: a top-level entry the scan goes into: a directory whose name has the
longitude-subdirectory pattern. -/
def scanned {B : Type} (env : Collab B) (d : SubDir) : Bool :=
  env.isDir d.path && lonPattern (fileOnly d.path)

/-- Spec 4.2: the files of one top-level entry that are candidates: none unless the entry
is scanned, else its first 10 files. -/
def entryFiles {B : Type} (env : Collab B) (d : SubDir) : List TileFile :=
  if scanned env d then (d.files.getD []).take 10 else []

/-- Spec 4.2: the candidate tiles of a listing, in enumeration order: the candidates of
its first 10 entries. -/
def candidateFiles {B : Type} (env : Collab B) (entries : List SubDir) : List TileFile :=
  (entries.take 10).flatMap (entryFiles env)

/-- Whether the tile handler opens the file. -/
def TileFile.opens (t : TileFile) : Bool := t.tile.isSome

/-- The prefix of a list of files that ends with its first openable file (the whole list
when none opens). -/
def triedTiles : List TileFile → List TileFile
  | [] => []
  | t :: ts => if t.opens then [t] else t :: triedTiles ts

/-- The prefix of a list of entries that ends with the first entry holding an openable
candidate (the whole list when there is none). -/
def triedEntries {B : Type} (env : Collab B) : List SubDir → List SubDir
  | [] => []
  | d :: ds => if (entryFiles env d).any TileFile.opens then [d] else d :: triedEntries env ds

/-- The database after the scan has taken its settings from the tile `t` found under
`dir` (lines 347-350); unchanged when there is no tile. -/
def installTile {B : Type} (db : ossimDtedElevationDatabase B) (dir : String) :
    Option TileFile → ossimDtedElevationDatabase B
  | some ⟨path, some spacing⟩ =>
    { db with
      m_extension := "." ++ fileExt path,
      base := { db.base with m_connectionString := dir, m_meanSpacing := spacing } }
  | _ => db

/-- The handler calls of one pass of the inner loop on a file of the listing. -/
def tileEvents (t : TileFile) : List Event :=
  [Event.tileOpen (some t.path), Event.handlerClose (some t.path)]

/-- The calls of one pass of the outer loop on an entry of the listing. -/
def entryEvents {B : Type} (env : Collab B) (d : SubDir) : List Event :=
  Event.isDir d.path ::
    (if scanned env d then
      Event.dirOpen d.path ::
        (match d.files with
         | none => []
         | some [] => [Event.tileOpen none, Event.handlerClose none]
         | some (f :: fs) => (triedTiles ((f :: fs).take 10)).flatMap tileEvents)
     else [])

/-- The extension invariant: unset, or beginning with a dot. -/
def extensionOk (ext : String) : Prop := ext = "" ∨ ext.data.head? = some '.'

/-- The states reachable from a freshly constructed database by `loadState`, `open` and
copy construction, whatever the collaborators answer at each step. -/
inductive Reachable {B : Type} : ossimDtedElevationDatabase B → Prop where
  | fresh (b : ossimElevationCellDatabase B) : Reachable (ossimDtedElevationDatabase.construct b)
  | load (env : Collab B) (db : ossimDtedElevationDatabase B) (kwl : ossimKeywordlist)
      (pfx : Option String) :
      Reachable db → Reachable (ossimDtedElevationDatabase.loadState env db kwl pfx).2
  | opened (env : Collab B) (db : ossimDtedElevationDatabase B) (connectionString : String) :
      Reachable db → Reachable (ossimDtedElevationDatabase.open_ env db connectionString).2
  | copied (db : ossimDtedElevationDatabase B) :
      Reachable db → Reachable (ossimDtedElevationDatabase.copy db)

/-! ## A concrete world -/

/-- A point in the cell of longitude 5. -/
def pointA : ossimGpt := ⟨3, 5⟩

/-- A small world: the handler of a cell is numbered by the cell's longitude, the root
`/dted` holds one longitude directory with one openable tile. -/
def demoEnv : Collab Unit where
  pointHasCoverage := fun h p => p.lond.num.natAbs == h
  handlerHeight := fun h _ => if h = 5 then Dbl.fin 100 else Dbl.fin 200
  handlerAccuracy := fun h _ _ => ([1], h == 5)
  newDtedHandler := fun _ _ => none
  getOrCreateCellHandler := fun b _ p => (some p.lond.num.natAbs, b)
  getOffsetFromEllipsoid := fun _ _ => Dbl.fin (-30)
  rnd := Dbl.fin
  isDir := fun p => p == "/dted" || p == "/dted/e005"
  pathExists := fun p => p == "/dted" || p == "/dted/e005"
  readDir := fun p =>
    if p == "/dted" then
      some [⟨"/dted/e005", some [⟨"/dted/e005/n03.dt1", some (Dbl.fin 90)⟩]⟩]
    else none
  findGeoidByShortName := fun _ _ => some 0
  findKey := fun _ k => if k == "extension" then "dt2" else ""
  toBool := fun s => s == "true"
  baseLoadState := fun b _ _ => (b, true)

/-- Eleven files in one longitude directory: only the last one is a tile. -/
def elevenFiles : List TileFile :=
  List.replicate 10 ⟨"/dted/w122/readme", none⟩ ++ [⟨"/dted/w122/n47.dt2", some (Dbl.fin 30)⟩]

/-- The world of `demoEnv` with a root whose only tile lies beyond the file cap. -/
def cappedEnv : Collab Unit :=
  { demoEnv with
    isDir := fun p => p == "/dted" || p == "/dted/w122"
    readDir := fun p => if p == "/dted" then some [⟨"/dted/w122", some elevenFiles⟩] else none }

/-- An enabled database rooted at `/dted`, nothing cached, extension unset. -/
def demoDb : ossimDtedElevationDatabase Unit :=
  ossimDtedElevationDatabase.construct ⟨(), true, "/dted", Dbl.fin 0, none, false⟩

/-- An enabled database whose connection string names a path that does not exist. -/
def missingRootDb : ossimDtedElevationDatabase Unit :=
  ossimDtedElevationDatabase.construct ⟨(), true, "/missing", Dbl.fin 0, none, false⟩

/-- The demo database with its source disabled. -/
def disabledDb : ossimDtedElevationDatabase Unit :=
  ossimDtedElevationDatabase.construct ⟨(), false, "/dted", Dbl.fin 0, none, false⟩

/-- The calls of the whole scan of a listing, after the root has been opened: the passes
over the entries tried, or the single pass on the empty file name when the root has no
entry at all. -/
def scanEvents {B : Type} (env : Collab B) (entries : List SubDir) : List Event :=
  match entries with
  | [] => [Event.isDir ""]
  | _ :: _ => (triedEntries env (entries.take 10)).flatMap (entryEvents env)

open ossimDtedElevationDatabase

/-! ## Path construction -/

theorem wrap32_id (i : Int) (h1 : -2147483648 ≤ i) (h2 : i < 2147483648) : wrap32 i = i := by
  unfold wrap32; omega

theorem absInt_eq_natAbs (i : Int) (h1 : -2147483648 < i) (h2 : i < 2147483648) :
    absInt i = (i.natAbs : Int) := by
  unfold absInt
  split
  · rw [wrap32_id _ (by omega) (by omega)]; omega
  · omega

theorem ostreamInt_natCast (w n : Nat) : ostreamInt '0' w (n : Int) = zeroPadded w n := by
  unfold ostreamInt zeroPadded
  have : ¬ (n : Int) < 0 := by omega
  simp only [this, if_false]
  simp [Nat.repr, List.asString, String.length]
  rfl

theorem createRelativePath_of_floor (ext : String) (upcase : Bool) (gpt : ossimGpt)
    (a b : Int) (ha : Rat.floor gpt.lond = a) (hb : Rat.floor gpt.latd = b)
    (ha1 : -2147483648 < a) (ha2 : a < 2147483648)
    (hb1 : -2147483648 < b) (hb2 : b < 2147483648) :
    createRelativePath ext upcase gpt
      = specRelativePath ext upcase a b := by
  unfold createRelativePath specRelativePath
  simp only [ha, hb]
  rw [wrap32_id a (by omega) ha2, wrap32_id b (by omega) hb2,
    absInt_eq_natAbs a ha1 ha2, absInt_eq_natAbs b hb1 hb2,
    ostreamInt_natCast, ostreamInt_natCast]

/-- C1 (amended): for every point whose floor(longitude) and floor(latitude) lie strictly
between -2^31 and 2^31, every extension and every upcase flag, `createRelativePath` yields
the longitude letter and `abs(floor(lon))` padded to at least 3 digits, joined as a directory
with the latitude letter, `abs(floor(lat))` padded to at least 2 digits and the extension;
the letters are w/W, s/S for negative indices and e/E, n/N otherwise, upper case exactly when
upcase is set. -/
theorem createRelativePath_spec (ext : String) (upcase : Bool) (gpt : ossimGpt)
    (hlon1 : -2147483648 < Rat.floor gpt.lond) (hlon2 : Rat.floor gpt.lond < 2147483648)
    (hlat1 : -2147483648 < Rat.floor gpt.latd) (hlat2 : Rat.floor gpt.latd < 2147483648) :
    createRelativePath ext upcase gpt
      = specRelativePath ext upcase (Rat.floor gpt.lond) (Rat.floor gpt.latd) :=
  createRelativePath_of_floor ext upcase gpt _ _ rfl rfl hlon1 hlon2 hlat1 hlat2

/-- C1 witness: the two examples of the spec, (lon=-121.5, lat=47.2, ".dt2", lowercase) and
(lon=5, lat=-3, ".dt1", upcase); flooring sends -121.5 to cell -122. -/
theorem createRelativePath_spec_witness :
    createRelativePath ".dt2" false ⟨(472 : ℚ) / 10, (-1215 : ℚ) / 10⟩
        = "w122/n47.dt2"
    ∧ createRelativePath ".dt1" true ⟨-3, 5⟩ = "E005/S03.dt1" := by
  have h1 : Rat.floor ((-1215 : ℚ) / 10) = -122 := by norm_num [Rat.floor]
  have h2 : Rat.floor ((472 : ℚ) / 10) = 47 := by norm_num [Rat.floor]
  have h3 : Rat.floor (5 : ℚ) = 5 := by norm_num [Rat.floor]
  have h4 : Rat.floor (-3 : ℚ) = -3 := by norm_num [Rat.floor]
  constructor
  · rw [createRelativePath_spec ".dt2" false ⟨(472 : ℚ) / 10, (-1215 : ℚ) / 10⟩
      (by simp only [h1]; decide) (by simp only [h1]; decide)
      (by simp only [h2]; decide) (by simp only [h2]; decide)]
    simp only [h1, h2]
    decide
  · rw [createRelativePath_spec ".dt1" true ⟨-3, 5⟩
      (by simp only [h3]; decide) (by simp only [h3]; decide)
      (by simp only [h4]; decide) (by simp only [h4]; decide)]
    simp only [h3, h4]
    decide

/-- C1 counterexample: floor(longitude) = -2^31 fits in an `int`, yet `abs` cannot
represent its magnitude: the directory name keeps the minus sign instead of being the
letter followed by `abs(floor(lon))`. -/
theorem createRelativePath_int_min :
    (-2147483648 ≤ Rat.floor (-2147483648 : ℚ) ∧ Rat.floor (-2147483648 : ℚ) < 2147483648)
    ∧ createRelativePath ".dt2" false ⟨0, -2147483648⟩
        = "w-2147483648/n00.dt2"
    ∧ createRelativePath ".dt2" false ⟨0, -2147483648⟩
        ≠ specRelativePath ".dt2" false (Rat.floor (-2147483648 : ℚ)) (Rat.floor (0 : ℚ)) := by
  have h1 : Rat.floor (-2147483648 : ℚ) = -2147483648 := by norm_num [Rat.floor]
  have h2 : Rat.floor (0 : ℚ) = 0 := by norm_num [Rat.floor]
  have h3 : createRelativePath ".dt2" false ⟨0, -2147483648⟩
      = "w-2147483648/n00.dt2" := by
    unfold createRelativePath
    simp only [h1, h2]
    decide
  refine ⟨by simp only [h1]; decide, h3, ?_⟩
  rw [h3, h1, h2]
  decide

/-! ## The single-slot cache -/


theorem factoryCalls_append (s t : List Event) :
    factoryCalls (s ++ t) = factoryCalls s + factoryCalls t := by
  simp [factoryCalls]

theorem closeCalls_append (s t : List Event) :
    closeCalls (s ++ t) = closeCalls s + closeCalls t := by
  simp [closeCalls]

theorem takeCount_append (s t : List Event) :
    takeCount (s ++ t) = takeCount s + takeCount t := by
  simp [takeCount]

theorem dropCount_append (s t : List Event) :
    dropCount (s ++ t) = dropCount s + dropCount t := by
  simp [dropCount]

theorem assignEvents_counts (old new : Option CellHandler) :
    factoryCalls (assignEvents old new) = 0
    ∧ closeCalls (assignEvents old new) = 0
    ∧ dropCount (assignEvents old new) + occupied new
        = takeCount (assignEvents old new) + occupied old := by
  unfold assignEvents
  split
  · rename_i h
    subst h
    exact ⟨rfl, rfl, rfl⟩
  · cases old <;> cases new <;>
      simp_all [factoryCalls, closeCalls, dropCount, takeCount, occupied]

theorem replaceHandler_effect {B : Type} (env : Collab B)
    (db : ossimDtedElevationDatabase B) (gpt : ossimGpt) :
    ∃ es, (replaceHandler env db gpt).2.trace = db.trace ++ es
      ∧ factoryCalls es = 1 ∧ closeCalls es = 0
      ∧ dropCount es + occupied (replaceHandler env db gpt).2.m_lastHandler
          = takeCount es + occupied db.m_lastHandler := by
  obtain ⟨h1, h2, h3⟩ := assignEvents_counts db.m_lastHandler
    (env.getOrCreateCellHandler db.base (createCell env db) gpt).1
  unfold replaceHandler
  simp only []
  split
  · rename_i h hh
    refine ⟨Event.getOrCreateCellHandler gpt :: assignEvents db.m_lastHandler
      (env.getOrCreateCellHandler db.base (createCell env db) gpt).1
        ++ [Event.handlerHeight h gpt], by simp [log], ?_, ?_, ?_⟩
    · rw [show ∀ (e : Event) l m, e :: l ++ m = [e] ++ l ++ m from fun _ _ _ => rfl,
        factoryCalls_append, factoryCalls_append, h1]
      rfl
    · rw [show ∀ (e : Event) l m, e :: l ++ m = [e] ++ l ++ m from fun _ _ _ => rfl,
        closeCalls_append, closeCalls_append, h2]
      rfl
    · rw [show ∀ (e : Event) l m, e :: l ++ m = [e] ++ l ++ m from fun _ _ _ => rfl,
        dropCount_append, dropCount_append, takeCount_append, takeCount_append]
      have e1 : dropCount [Event.getOrCreateCellHandler gpt] = 0 := rfl
      have e2 : takeCount [Event.getOrCreateCellHandler gpt] = 0 := rfl
      have e3 : dropCount [Event.handlerHeight h gpt] = 0 := rfl
      have e4 : takeCount [Event.handlerHeight h gpt] = 0 := rfl
      simp only [log, e1, e2, e3, e4]
      omega
  · refine ⟨Event.getOrCreateCellHandler gpt :: assignEvents db.m_lastHandler
      (env.getOrCreateCellHandler db.base (createCell env db) gpt).1, by simp [log], ?_, ?_, ?_⟩
    · rw [show ∀ (e : Event) l, e :: l = [e] ++ l from fun _ _ => rfl,
        factoryCalls_append, h1]
      rfl
    · rw [show ∀ (e : Event) l, e :: l = [e] ++ l from fun _ _ => rfl,
        closeCalls_append, h2]
      rfl
    · rw [show ∀ (e : Event) l, e :: l = [e] ++ l from fun _ _ => rfl,
        dropCount_append, takeCount_append]
      have e1 : dropCount [Event.getOrCreateCellHandler gpt] = 0 := rfl
      have e2 : takeCount [Event.getOrCreateCellHandler gpt] = 0 := rfl
      simp only [log, e1, e2]
      omega

theorem replaceHandler_factoryCalls {B : Type} (env : Collab B)
    (db : ossimDtedElevationDatabase B) (gpt : ossimGpt) :
    factoryCalls (replaceHandler env db gpt).2.trace = factoryCalls db.trace + 1 := by
  obtain ⟨es, h1, h2, _⟩ := replaceHandler_effect env db gpt
  rw [h1, factoryCalls_append, h2]

theorem getHeightAboveMSL_of_disabled {B : Type} (env : Collab B)
    (db : ossimDtedElevationDatabase B) (gpt : ossimGpt) (hdis : db.base.enabled = false) :
    getHeightAboveMSL env db gpt = (ossimNan, db) := by
  unfold getHeightAboveMSL
  simp [hdis]

theorem getHeightAboveMSL_hit {B : Type} (env : Collab B) (db : ossimDtedElevationDatabase B)
    (h : CellHandler) (gpt : ossimGpt) (hen : db.base.enabled = true)
    (hslot : db.m_lastHandler = some h) (hcov : env.pointHasCoverage h gpt = true) :
    getHeightAboveMSL env db gpt
      = (env.handlerHeight h gpt,
          db.log [Event.pointHasCoverage h gpt, Event.handlerHeight h gpt]) := by
  unfold getHeightAboveMSL
  simp [hen, hslot, hcov]

theorem getHeightAboveMSL_miss {B : Type} (env : Collab B) (db : ossimDtedElevationDatabase B)
    (gpt : ossimGpt) (hen : db.base.enabled = true)
    (hmiss : ∀ h, db.m_lastHandler = some h → env.pointHasCoverage h gpt = false) :
    factoryCalls (getHeightAboveMSL env db gpt).2.trace = factoryCalls db.trace + 1 := by
  unfold getHeightAboveMSL
  simp only [hen, Bool.not_true, Bool.false_eq_true, if_false]
  cases hs : db.m_lastHandler with
  | none => simp only []; rw [replaceHandler_factoryCalls]
  | some h =>
    simp only [hmiss h hs, Bool.false_eq_true, if_false]
    rw [replaceHandler_factoryCalls]; simp [log, factoryCalls]

/-- C2: on an enabled database whose slot holds a handle covering the point,
`getHeightAboveMSL` returns that handle's height, asks the handler factory nothing, keeps
the same handle in the slot and touches nothing but the trace.  Consequently, when a first
query misses the cache and installs a handle, a second query to any point that handle
covers brings the number of factory calls of the two queries to exactly one. -/
theorem getHeightAboveMSL_cache_hit {B : Type} (env : Collab B) :
    (∀ (db : ossimDtedElevationDatabase B) (h : CellHandler) (gpt : ossimGpt),
      db.base.enabled = true → db.m_lastHandler = some h →
      env.pointHasCoverage h gpt = true →
        (getHeightAboveMSL env db gpt).1 = env.handlerHeight h gpt
        ∧ (getHeightAboveMSL env db gpt).2.m_lastHandler = some h
        ∧ factoryCalls (getHeightAboveMSL env db gpt).2.trace = factoryCalls db.trace
        ∧ (getHeightAboveMSL env db gpt).2.trace
            = db.trace ++ [Event.pointHasCoverage h gpt, Event.handlerHeight h gpt]
        ∧ (getHeightAboveMSL env db gpt).2.base = db.base
        ∧ (getHeightAboveMSL env db gpt).2.m_extension = db.m_extension
        ∧ (getHeightAboveMSL env db gpt).2.m_upcase = db.m_upcase)
    ∧ (∀ (db : ossimDtedElevationDatabase B) (h : CellHandler) (p1 p2 : ossimGpt),
      db.base.enabled = true →
      (∀ h0, db.m_lastHandler = some h0 → env.pointHasCoverage h0 p1 = false) →
      (getHeightAboveMSL env db p1).2.m_lastHandler = some h →
      env.pointHasCoverage h p2 = true →
        factoryCalls (getHeightAboveMSL env (getHeightAboveMSL env db p1).2 p2).2.trace
          = factoryCalls db.trace + 1
        ∧ (getHeightAboveMSL env (getHeightAboveMSL env db p1).2 p2).2.m_lastHandler
          = some h) := by
  constructor
  · intro db h gpt hen hslot hcov
    rw [getHeightAboveMSL_hit env db h gpt hen hslot hcov]
    simp [log, factoryCalls, hslot]
  · intro db h p1 p2 hen hmiss hslot hcov
    have h1 := getHeightAboveMSL_miss env db p1 hen hmiss
    cases hen2 : (getHeightAboveMSL env db p1).2.base.enabled with
    | true =>
      rw [getHeightAboveMSL_hit env _ h p2 hen2 hslot hcov]
      simp only [log, factoryCalls_append, h1, hslot]
      simp [factoryCalls]
    | false =>
      rw [getHeightAboveMSL_of_disabled env _ p2 hen2]
      exact ⟨h1, hslot⟩

/-- C2 witness: in the demo world, a first query at `pointA` opens handler 5, and a second
query at the same point is answered from the slot: one factory call in all. -/
theorem getHeightAboveMSL_cache_hit_witness :
    (getHeightAboveMSL demoEnv (getHeightAboveMSL demoEnv demoDb pointA).2 pointA).1
        = Dbl.fin 100
    ∧ factoryCalls
        (getHeightAboveMSL demoEnv (getHeightAboveMSL demoEnv demoDb pointA).2 pointA).2.trace
        = 1 := by
  have hen : (getHeightAboveMSL demoEnv demoDb pointA).2.base.enabled = true := by decide
  have hslot : (getHeightAboveMSL demoEnv demoDb pointA).2.m_lastHandler = some 5 := by decide
  have hcov : demoEnv.pointHasCoverage 5 pointA = true := by decide
  have h1 := (getHeightAboveMSL_cache_hit demoEnv).1 _ 5 pointA hen hslot hcov
  have h2 := (getHeightAboveMSL_cache_hit demoEnv).2 demoDb 5 pointA pointA (by decide)
    (by intro h0 hh; cases hh) hslot hcov
  refine ⟨?_, ?_⟩
  · rw [h1.1]; decide
  · rw [h2.1]; decide

/-- C8: on a database whose source is disabled, `getHeightAboveMSL` returns NaN for every
point and hands back the very same state: no collaborator call is traced, the slot and
every configuration field are as before. -/
theorem getHeightAboveMSL_disabled {B : Type} (env : Collab B)
    (db : ossimDtedElevationDatabase B) (gpt : ossimGpt) (hdis : db.base.enabled = false) :
    getHeightAboveMSL env db gpt = (ossimNan, db) :=
  getHeightAboveMSL_of_disabled env db gpt hdis

/-- C8 witness: the disabled demo database at `pointA`. -/
theorem getHeightAboveMSL_disabled_witness :
    disabledDb.base.enabled = false
    ∧ getHeightAboveMSL demoEnv disabledDb pointA = (ossimNan, disabledDb) :=
  ⟨by decide, getHeightAboveMSL_disabled demoEnv disabledDb pointA (by decide)⟩

theorem createCell_log {B : Type} (env : Collab B) (db : ossimDtedElevationDatabase B)
    (es : List Event) : createCell env (db.log es) = createCell env db := rfl

theorem Dbl.ne_nan (x : Dbl) : Dbl.ne x ossimNan = true := by
  cases x <;> rfl

theorem Dbl.nan_add (rnd : ℚ → Dbl) (x : Dbl) : Dbl.add rnd Dbl.nan x = Dbl.nan := by
  cases x <;> rfl

theorem getHeightAboveEllipsoid_eq {B : Type} (env : Collab B)
    (db : ossimDtedElevationDatabase B) (gpt : ossimGpt) :
    getHeightAboveEllipsoid env db gpt
      = (Dbl.add env.rnd (getHeightAboveMSL env db gpt).1
            (env.getOffsetFromEllipsoid (getHeightAboveMSL env db gpt).2.base gpt),
          (getHeightAboveMSL env db gpt).2.log [Event.getOffsetFromEllipsoid gpt]) := by
  unfold getHeightAboveEllipsoid
  simp [Dbl.ne_nan]

/-- C4: whenever `getHeightAboveMSL` returns a valid number `h`, `getHeightAboveEllipsoid`
returns `h` plus `getOffsetFromEllipsoid` at the point, and leaves the cache slot, the
inherited state and the configuration exactly as that one `getHeightAboveMSL` call does. -/
theorem getHeightAboveEllipsoid_sum {B : Type} (env : Collab B)
    (db : ossimDtedElevationDatabase B) (gpt : ossimGpt)
    (hvalid : (getHeightAboveMSL env db gpt).1 ≠ ossimNan) :
    (getHeightAboveEllipsoid env db gpt).1
        = Dbl.add env.rnd (getHeightAboveMSL env db gpt).1
            (env.getOffsetFromEllipsoid (getHeightAboveMSL env db gpt).2.base gpt)
    ∧ (getHeightAboveEllipsoid env db gpt).2.m_lastHandler
        = (getHeightAboveMSL env db gpt).2.m_lastHandler
    ∧ (getHeightAboveEllipsoid env db gpt).2.base = (getHeightAboveMSL env db gpt).2.base
    ∧ (getHeightAboveEllipsoid env db gpt).2.m_extension
        = (getHeightAboveMSL env db gpt).2.m_extension
    ∧ (getHeightAboveEllipsoid env db gpt).2.m_upcase
        = (getHeightAboveMSL env db gpt).2.m_upcase
    ∧ factoryCalls (getHeightAboveEllipsoid env db gpt).2.trace
        = factoryCalls (getHeightAboveMSL env db gpt).2.trace := by
  have _ := hvalid
  rw [getHeightAboveEllipsoid_eq]
  simp [log, factoryCalls]

/-- C4 witness: the demo database at `pointA`: MSL height 100, geoid offset -30. -/
theorem getHeightAboveEllipsoid_sum_witness :
    (getHeightAboveMSL demoEnv demoDb pointA).1 = Dbl.fin 100
    ∧ (getHeightAboveEllipsoid demoEnv demoDb pointA).1 = Dbl.fin 70
    ∧ (getHeightAboveEllipsoid demoEnv demoDb pointA).2.m_lastHandler = some 5 := by
  have h := getHeightAboveEllipsoid_sum demoEnv demoDb pointA (by decide)
  refine ⟨by decide, h.1.trans ?_, h.2.1.trans (by decide)⟩
  have h1 : (getHeightAboveMSL demoEnv demoDb pointA).1 = Dbl.fin 100 := by decide
  rw [h1]
  show demoEnv.rnd ((100 : ℚ) + (-30)) = Dbl.fin 70
  show Dbl.fin ((100 : ℚ) + (-30)) = Dbl.fin 70
  norm_num

theorem getHeightAboveMSL_open_fails {B : Type} (env : Collab B)
    (db : ossimDtedElevationDatabase B) (gpt : ossimGpt) (hen : db.base.enabled = true)
    (hmiss : ∀ h, db.m_lastHandler = some h → env.pointHasCoverage h gpt = false)
    (hfail : (env.getOrCreateCellHandler db.base (createCell env db) gpt).1 = none) :
    (getHeightAboveMSL env db gpt).1 = ossimNan := by
  unfold getHeightAboveMSL
  simp only [hen, Bool.not_true, Bool.false_eq_true, if_false]
  cases hs : db.m_lastHandler with
  | none =>
    simp only []
    unfold replaceHandler
    simp only [hfail]
  | some h =>
    simp only [hmiss h hs, Bool.false_eq_true, if_false]
    unfold replaceHandler
    have hb : (db.log [Event.pointHasCoverage h gpt]).base = db.base := rfl
    simp only [createCell_log, hb, hfail]

theorem getHeightAboveEllipsoid_of_nan {B : Type} (env : Collab B)
    (db : ossimDtedElevationDatabase B) (gpt : ossimGpt)
    (h : (getHeightAboveMSL env db gpt).1 = ossimNan) :
    (getHeightAboveEllipsoid env db gpt).1 = ossimNan := by
  rw [getHeightAboveEllipsoid_eq]
  simp only [h]
  exact Dbl.nan_add _ _

/-- C5: whenever `getHeightAboveMSL` returns NaN ("no data"), `getHeightAboveEllipsoid`
returns NaN as well: the value is that of the height query, whatever offset the geoid has
at the point, and no numeric height is produced; the slot, the inherited state and the
configuration are those the height query left.  This covers a disabled source, a cache
miss whose handler-open fails, and a handle that itself reports NaN. -/
theorem getHeightAboveEllipsoid_nodata {B : Type} (env : Collab B) :
    (∀ (db : ossimDtedElevationDatabase B) (gpt : ossimGpt),
      (getHeightAboveMSL env db gpt).1 = ossimNan →
        (getHeightAboveEllipsoid env db gpt).1 = ossimNan
        ∧ (getHeightAboveEllipsoid env db gpt).1 = (getHeightAboveMSL env db gpt).1
        ∧ (getHeightAboveEllipsoid env db gpt).2.m_lastHandler
            = (getHeightAboveMSL env db gpt).2.m_lastHandler
        ∧ (getHeightAboveEllipsoid env db gpt).2.base = (getHeightAboveMSL env db gpt).2.base
        ∧ (getHeightAboveEllipsoid env db gpt).2.m_extension
            = (getHeightAboveMSL env db gpt).2.m_extension
        ∧ (getHeightAboveEllipsoid env db gpt).2.m_upcase
            = (getHeightAboveMSL env db gpt).2.m_upcase)
    ∧ (∀ (db : ossimDtedElevationDatabase B) (gpt : ossimGpt),
        db.base.enabled = false → (getHeightAboveEllipsoid env db gpt).1 = ossimNan)
    ∧ (∀ (db : ossimDtedElevationDatabase B) (gpt : ossimGpt),
        db.base.enabled = true →
        (∀ h, db.m_lastHandler = some h → env.pointHasCoverage h gpt = false) →
        (env.getOrCreateCellHandler db.base (createCell env db) gpt).1 = none →
          (getHeightAboveEllipsoid env db gpt).1 = ossimNan)
    ∧ (∀ (db : ossimDtedElevationDatabase B) (h : CellHandler) (gpt : ossimGpt),
        db.base.enabled = true → db.m_lastHandler = some h →
        env.pointHasCoverage h gpt = true → env.handlerHeight h gpt = ossimNan →
          (getHeightAboveEllipsoid env db gpt).1 = ossimNan) := by
  refine ⟨?_, ?_, ?_, ?_⟩
  · intro db gpt h
    have h1 := getHeightAboveEllipsoid_of_nan env db gpt h
    refine ⟨h1, h1.trans h.symm, ?_⟩
    rw [getHeightAboveEllipsoid_eq]
    exact ⟨rfl, rfl, rfl, rfl⟩
  · intro db gpt hdis
    apply getHeightAboveEllipsoid_of_nan
    rw [getHeightAboveMSL_of_disabled env db gpt hdis]
  · intro db gpt hen hmiss hfail
    exact getHeightAboveEllipsoid_of_nan env db gpt
      (getHeightAboveMSL_open_fails env db gpt hen hmiss hfail)
  · intro db h gpt hen hslot hcov hnan
    apply getHeightAboveEllipsoid_of_nan
    rw [getHeightAboveMSL_hit env db h gpt hen hslot hcov]
    exact hnan

/-- C5 witness: the disabled demo database at `pointA`, where the geoid offset is -30:
the height query gives NaN and so does `getHeightAboveEllipsoid`. -/
theorem getHeightAboveEllipsoid_nodata_witness :
    (getHeightAboveMSL demoEnv disabledDb pointA).1 = ossimNan
    ∧ demoEnv.getOffsetFromEllipsoid disabledDb.base pointA = Dbl.fin (-30)
    ∧ (getHeightAboveEllipsoid demoEnv disabledDb pointA).1 = ossimNan :=
  ⟨by decide, rfl,
    ((getHeightAboveEllipsoid_nodata demoEnv).1 disabledDb pointA (by decide)).1⟩

/-! ## Accuracy queries -/

/-- C6: `getAccuracyInfo` leaves `m_lastHandler` (and the configuration) unchanged, returns
the same whatever the slot holds, always makes one call to the handler factory, and
returns false with `info` untouched when the factory delivers no handle, else what that
handle's `getAccuracyInfo` returns. -/
theorem getAccuracyInfo_independent {B : Type} (env : Collab B)
    (db : ossimDtedElevationDatabase B) (info : ossimElevationAccuracyInfo) (gpt : ossimGpt) :
    (getAccuracyInfo env db info gpt).2.m_lastHandler = db.m_lastHandler
    ∧ (getAccuracyInfo env db info gpt).2.m_extension = db.m_extension
    ∧ (getAccuracyInfo env db info gpt).2.m_upcase = db.m_upcase
    ∧ (∀ slot : Option CellHandler,
        (getAccuracyInfo env { db with m_lastHandler := slot } info gpt).1
          = (getAccuracyInfo env db info gpt).1)
    ∧ factoryCalls (getAccuracyInfo env db info gpt).2.trace = factoryCalls db.trace + 1
    ∧ (getAccuracyInfo env db info gpt).1
        = (match (env.getOrCreateCellHandler db.base (createCell env db) gpt).1 with
           | some h => ((env.handlerAccuracy h info gpt).2, (env.handlerAccuracy h info gpt).1)
           | none => (false, info)) := by
  unfold getAccuracyInfo
  simp only []
  refine ⟨?_, ?_, ?_, ?_, ?_, ?_⟩
  · split <;> rfl
  · split <;> rfl
  · split <;> rfl
  · intro slot
    have hc : createCell env { db with m_lastHandler := slot } = createCell env db := rfl
    simp only [hc]
    split <;> rfl
  · split <;> simp [log, factoryCalls]
  · split <;> rfl

/-! ## The extension scan -/

theorem foundCell_eq_lonPattern (name : String) : foundCell name = lonPattern name := by
  rcases name with ⟨l⟩
  unfold foundCell lonPattern
  match l with
  | [] => rfl
  | [_] => simp [String.length]
  | [_, _] => simp [String.length]
  | [_, _, _] => simp [String.length]
  | [c, _, _, _] =>
    simp [String.length]
    generalize (c == 'e') = b1
    generalize (c == 'w') = b2
    generalize (c == 'E') = b3
    generalize (c == 'W') = b4
    cases b1 <;> cases b2 <;> cases b3 <;> cases b4 <;> rfl
  | _ :: _ :: _ :: _ :: _ :: _ => simp [String.length]

theorem log_log {B : Type} (db : ossimDtedElevationDatabase B) (a b : List Event) :
    (db.log a).log b = db.log (a ++ b) := by
  simp [log]

theorem installTile_log {B : Type} (db : ossimDtedElevationDatabase B) (dir : String)
    (o : Option TileFile) (es : List Event) :
    installTile (db.log es) dir o = (installTile db dir o).log es := by
  unfold installTile
  split <;> rfl

theorem installTile_none {B : Type} (db : ossimDtedElevationDatabase B) (dir : String) :
    installTile db dir none = db := rfl

theorem tryTile_some {B : Type} (db : ossimDtedElevationDatabase B) (dir : String)
    (t : TileFile) :
    tryTile db dir (some t)
      = (t.opens, (installTile db dir (if t.opens then some t else none)).log (tileEvents t)) := by
  rcases t with ⟨path, tile⟩
  cases tile with
  | none => simp [tryTile, TileFile.opens, installTile, log, tileEvents]
  | some sp => simp [tryTile, TileFile.opens, installTile, log, tileEvents]

theorem take_cap_cons {α : Type} (c : Nat) (hc : c < 10) (x : α) (xs : List α) :
    (x :: xs).take (10 - c) = x :: xs.take (9 - c) := by
  have : 10 - c = (9 - c) + 1 := by omega
  rw [this, List.take_succ_cons]

theorem scanFiles_eq {B : Type} (dir : String) :
    ∀ (rest : List TileFile) (f : TileFile) (c : Nat) (db : ossimDtedElevationDatabase B),
      c < 10 →
      scanFiles db dir (some f) rest c
        = (((f :: rest).take (10 - c)).any TileFile.opens,
            (installTile db dir (((f :: rest).take (10 - c)).find? TileFile.opens)).log
              ((triedTiles ((f :: rest).take (10 - c))).flatMap tileEvents)) := by
  intro rest
  induction rest with
  | nil =>
    intro f c db hc
    rw [take_cap_cons c hc]
    unfold scanFiles
    simp only [tryTile_some, List.take_nil]
    cases hf : f.opens <;> simp [hf, triedTiles, List.find?]
  | cons g rest1 ih =>
    intro f c db hc
    rw [take_cap_cons c hc]
    unfold scanFiles
    simp only [tryTile_some]
    cases hf : f.opens
    · by_cases hc1 : c + 1 < 10
      · simp only [hc1, if_true, Bool.false_eq_true, if_false]
        rw [ih g (c + 1) _ hc1]
        have h9 : 9 - c = 10 - (c + 1) := by omega
        rw [h9]
        simp [hf, triedTiles, List.find?, installTile_log, log_log, installTile_none]
      · have h9 : 9 - c = 0 := by omega
        simp [hc1, h9, hf, triedTiles, List.find?]
    · simp [hf, triedTiles, List.find?]

theorem scanEntry_eq {B : Type} (env : Collab B) (db : ossimDtedElevationDatabase B)
    (dir : String) (d : SubDir) :
    scanEntry env db dir (some d)
      = ((entryFiles env d).any TileFile.opens,
          (installTile db dir ((entryFiles env d).find? TileFile.opens)).log
            (entryEvents env d)) := by
  unfold scanEntry entryFiles entryEvents scanned
  simp only [Option.map_some', Option.getD_some, foundCell_eq_lonPattern, Option.some_bind]
  cases h1 : env.isDir d.path
  · simp [installTile_none]
  · cases h2 : lonPattern (fileOnly d.path)
    · simp [installTile_none]
    · simp only [Bool.and_self, if_true]
      cases h3 : d.files with
      | none => simp [installTile_none, log_log]
      | some files =>
        cases files with
        | nil =>
          simp only [List.head?, List.tail]
          unfold scanFiles
          simp [tryTile, log_log, installTile_none]
        | cons f fs =>
          simp only [List.head?, List.tail]
          rw [scanFiles_eq dir fs f 0 _ (by omega)]
          simp [installTile_log, log_log]

theorem scanEntry_none {B : Type} (env : Collab B) (db : ossimDtedElevationDatabase B)
    (dir : String) :
    scanEntry env db dir none = (false, db.log [Event.isDir ""]) := by
  unfold scanEntry
  have h : foundCell (fileOnly "") = false := by decide
  simp [h]

theorem find?_of_any_false {α : Type} (p : α → Bool) (l : List α) (h : l.any p = false) :
    l.find? p = none := by
  induction l with
  | nil => rfl
  | cons a l ih =>
    simp only [List.any_cons, Bool.or_eq_false_iff] at h
    simp [List.find?, h.1, ih h.2]

theorem find?_of_any_true {α : Type} (p : α → Bool) (l l2 : List α) (h : l.any p = true) :
    (l ++ l2).find? p = l.find? p := by
  induction l with
  | nil => simp at h
  | cons a l ih =>
    cases ha : p a
    · simp only [List.any_cons, ha, Bool.false_or] at h
      simp [List.find?, ha, ih h]
    · simp [List.find?, ha]

theorem scanDirs_eq {B : Type} (env : Collab B) (dir : String) :
    ∀ (rest : List SubDir) (d : SubDir) (c : Nat) (db : ossimDtedElevationDatabase B),
      c < 10 →
      scanDirs env db dir (some d) rest c
        = ((((d :: rest).take (10 - c)).flatMap (entryFiles env)).any TileFile.opens,
            (installTile db dir
                ((((d :: rest).take (10 - c)).flatMap (entryFiles env)).find? TileFile.opens)).log
              ((triedEntries env ((d :: rest).take (10 - c))).flatMap (entryEvents env))) := by
  intro rest
  induction rest with
  | nil =>
    intro d c db hc
    rw [take_cap_cons c hc]
    unfold scanDirs
    simp only [scanEntry_eq, List.take_nil]
    cases hf : (entryFiles env d).any TileFile.opens <;> simp [hf, triedEntries]
  | cons g rest1 ih =>
    intro d c db hc
    rw [take_cap_cons c hc]
    unfold scanDirs
    simp only [scanEntry_eq]
    cases hf : (entryFiles env d).any TileFile.opens
    · have hnone := find?_of_any_false _ _ hf
      by_cases hc1 : c + 1 < 10
      · simp only [hc1, if_true, Bool.false_eq_true, if_false]
        rw [ih g (c + 1) _ hc1]
        have h9 : 9 - c = 10 - (c + 1) := by omega
        rw [h9]
        simp [hf, hnone, triedEntries, installTile_log, log_log, installTile_none]
      · have h9 : 9 - c = 0 := by omega
        simp [hc1, h9, hf, hnone, triedEntries]
    · have hsome := find?_of_any_true TileFile.opens (entryFiles env d)
        ((List.take (9 - c) (g :: rest1)).flatMap (entryFiles env)) hf
      simp [hf, hsome, triedEntries]

theorem inititializeExtension_eq {B : Type} (env : Collab B)
    (db : ossimDtedElevationDatabase B) (dir : String) (entries : List SubDir)
    (hread : env.readDir dir = some entries) :
    inititializeExtension env db dir
      = ((candidateFiles env entries).any TileFile.opens,
          (installTile db dir ((candidateFiles env entries).find? TileFile.opens)).log
            (Event.dirOpen dir :: scanEvents env entries)) := by
  unfold inititializeExtension
  simp only [hread]
  cases entries with
  | nil =>
    simp only [List.head?, List.tail]
    unfold scanDirs
    simp [scanEntry_none, candidateFiles, scanEvents, installTile_none, log_log]
  | cons d rest =>
    simp only [List.head?, List.tail]
    rw [scanDirs_eq env dir rest d 0 _ (by omega)]
    simp [candidateFiles, scanEvents, installTile_log, log_log]

theorem installTile_fields {B : Type} (db : ossimDtedElevationDatabase B) (dir : String)
    (o : Option TileFile) :
    (installTile db dir o).m_upcase = db.m_upcase
    ∧ (installTile db dir o).m_lastHandler = db.m_lastHandler
    ∧ (installTile db dir o).trace = db.trace
    ∧ (installTile db dir o).base.m_geoid = db.base.m_geoid := by
  unfold installTile
  split <;> simp

theorem open_scan {B : Type} (env : Collab B) (db : ossimDtedElevationDatabase B)
    (root : String) (entries : List SubDir) (hdir : env.isDir root = true)
    (hext : db.m_extension = "") (hread : env.readDir root = some entries) :
    (open_ env db root).1 = (candidateFiles env entries).any TileFile.opens
    ∧ (open_ env db root).2.m_extension
        = (installTile db root ((candidateFiles env entries).find? TileFile.opens)).m_extension
    ∧ (open_ env db root).2.base.m_meanSpacing
        = (installTile db root
            ((candidateFiles env entries).find? TileFile.opens)).base.m_meanSpacing
    ∧ (open_ env db root).2.base.m_connectionString
        = (installTile db root
            ((candidateFiles env entries).find? TileFile.opens)).base.m_connectionString
    ∧ ∃ tail, (tail = [] ∨ tail = [Event.findGeoid])
        ∧ (open_ env db root).2.trace
            = db.trace ++ (Event.isDir root :: Event.dirOpen root :: scanEvents env entries)
                ++ tail := by
  unfold open_ openDtedDirectory
  have hlen : (db.log [Event.isDir root]).m_extension.length = 0 := by
    show db.m_extension.length = 0
    rw [hext]; rfl
  simp only [hdir, if_true, hlen, beq_self_eq_true, inititializeExtension_eq env _ root entries hread,
    installTile_log, log_log]
  obtain ⟨_, _, htr, hg⟩ := installTile_fields db root
    ((candidateFiles env entries).find? TileFile.opens)
  split
  · exact ⟨by simp, by simp [log], by simp [log], by simp [log],
      [Event.findGeoid], Or.inr rfl, by simp [log, htr]⟩
  · exact ⟨by simp, by simp [log], by simp [log], by simp [log],
      [], Or.inl rfl, by simp [log, htr]⟩

theorem attempted_append (s t : List Event) : attempted (s ++ t) = attempted s ++ attempted t := by
  simp [attempted]

theorem examined_append (s t : List Event) : examined (s ++ t) = examined s ++ examined t := by
  simp [examined]

theorem entered_append (s t : List Event) : entered (s ++ t) = entered s ++ entered t := by
  simp [entered]

theorem attempted_tileEvents (l : List TileFile) :
    attempted (l.flatMap tileEvents) = l.map TileFile.path := by
  induction l with
  | nil => rfl
  | cons t l ih =>
    rw [List.flatMap_cons, attempted_append, ih]
    simp [attempted, tileEvents]

theorem examined_tileEvents (l : List TileFile) : examined (l.flatMap tileEvents) = [] := by
  induction l with
  | nil => rfl
  | cons t l ih =>
    rw [List.flatMap_cons, examined_append, ih]
    simp [examined, tileEvents]

theorem entered_tileEvents (l : List TileFile) : entered (l.flatMap tileEvents) = [] := by
  induction l with
  | nil => rfl
  | cons t l ih =>
    rw [List.flatMap_cons, entered_append, ih]
    simp [entered, tileEvents]

theorem triedTiles_of_any_false (l : List TileFile) (h : l.any TileFile.opens = false) :
    triedTiles l = l := by
  induction l with
  | nil => rfl
  | cons a l ih =>
    simp only [List.any_cons, Bool.or_eq_false_iff] at h
    simp [triedTiles, h.1, ih h.2]

theorem triedTiles_append (l1 l2 : List TileFile) :
    triedTiles (l1 ++ l2)
      = if l1.any TileFile.opens then triedTiles l1 else l1 ++ triedTiles l2 := by
  induction l1 with
  | nil => simp
  | cons a l ih =>
    cases ha : a.opens
    · have h1 : triedTiles (a :: l ++ l2) = a :: triedTiles (l ++ l2) := by
        simp [triedTiles, ha]
      have h2 : triedTiles (a :: l) = a :: triedTiles l := by simp [triedTiles, ha]
      rw [h1, ih, h2]
      simp only [List.any_cons, ha, Bool.false_or]
      split <;> rfl
    · simp [triedTiles, ha]

theorem attempted_entryEvents {B : Type} (env : Collab B) (d : SubDir) :
    attempted (entryEvents env d) = (triedTiles (entryFiles env d)).map TileFile.path := by
  unfold entryEvents entryFiles
  cases hs : scanned env d
  · simp [attempted, triedTiles]
  · simp only [if_true]
    cases hf : d.files with
    | none => simp [attempted, triedTiles]
    | some files =>
      cases files with
      | nil => simp [attempted, triedTiles]
      | cons f fs =>
        change attempted ([Event.isDir d.path, Event.dirOpen d.path]
          ++ (triedTiles ((f :: fs).take 10)).flatMap tileEvents) = _
        rw [attempted_append, attempted_tileEvents]
        rfl

theorem examined_entryEvents {B : Type} (env : Collab B) (d : SubDir) :
    examined (entryEvents env d) = [d.path] := by
  unfold entryEvents
  cases hs : scanned env d
  · simp [examined]
  · simp only [if_true]
    cases hf : d.files with
    | none => simp [examined]
    | some files =>
      cases files with
      | nil => simp [examined]
      | cons f fs =>
        change examined ([Event.isDir d.path, Event.dirOpen d.path]
          ++ (triedTiles ((f :: fs).take 10)).flatMap tileEvents) = _
        rw [examined_append, examined_tileEvents]
        rfl

theorem entered_entryEvents {B : Type} (env : Collab B) (d : SubDir) :
    entered (entryEvents env d) = if scanned env d then [d.path] else [] := by
  unfold entryEvents
  cases hs : scanned env d
  · simp [entered]
  · simp only [if_true]
    cases hf : d.files with
    | none => simp [entered]
    | some files =>
      cases files with
      | nil => simp [entered]
      | cons f fs =>
        change entered ([Event.isDir d.path, Event.dirOpen d.path]
          ++ (triedTiles ((f :: fs).take 10)).flatMap tileEvents) = _
        rw [entered_append, entered_tileEvents]
        rfl

theorem attempted_triedEntries {B : Type} (env : Collab B) (es : List SubDir) :
    attempted ((triedEntries env es).flatMap (entryEvents env))
      = (triedTiles (es.flatMap (entryFiles env))).map TileFile.path := by
  induction es with
  | nil => rfl
  | cons d ds ih =>
    rw [List.flatMap_cons, triedTiles_append]
    cases hd : (entryFiles env d).any TileFile.opens
    · simp only [triedEntries, hd, Bool.false_eq_true, if_false, List.flatMap_cons,
        attempted_append, ih, attempted_entryEvents, List.map_append,
        triedTiles_of_any_false _ hd]
    · simp [triedEntries, hd, attempted_entryEvents]

theorem examined_triedEntries {B : Type} (env : Collab B) (es : List SubDir) :
    examined ((triedEntries env es).flatMap (entryEvents env))
      = (triedEntries env es).map SubDir.path := by
  induction (triedEntries env es) with
  | nil => rfl
  | cons d ds ih => rw [List.flatMap_cons, examined_append, ih, examined_entryEvents]; rfl

theorem entered_triedEntries {B : Type} (env : Collab B) (es : List SubDir) :
    entered ((triedEntries env es).flatMap (entryEvents env))
      = ((triedEntries env es).filter (scanned env)).map SubDir.path := by
  induction (triedEntries env es) with
  | nil => rfl
  | cons d ds ih =>
    rw [List.flatMap_cons, entered_append, ih, entered_entryEvents]
    cases hs : scanned env d <;> simp [List.filter, hs]

theorem attempted_scanEvents {B : Type} (env : Collab B) (entries : List SubDir) :
    attempted (scanEvents env entries)
      = (triedTiles (candidateFiles env entries)).map TileFile.path := by
  cases entries with
  | nil => rfl
  | cons d ds => exact attempted_triedEntries env _

theorem triedTiles_of_find {F : TileFile} :
    ∀ (l : List TileFile), l.find? TileFile.opens = some F →
      triedTiles l = l.takeWhile (fun t => !t.opens) ++ [F] := by
  intro l
  induction l with
  | nil => intro h; simp at h
  | cons a l ih =>
    intro h
    cases ha : a.opens
    · simp only [List.find?, ha] at h
      simp [triedTiles, ha, ih h]
    · simp only [List.find?, ha, Option.some.injEq] at h
      subst h
      simp [triedTiles, ha, List.takeWhile]

theorem triedTiles_initial (l : List TileFile) : triedTiles l <+: l := by
  induction l with
  | nil => exact List.prefix_refl _
  | cons a l ih =>
    unfold triedTiles
    split
    · exact ⟨l, rfl⟩
    · exact (List.prefix_cons_inj a).mpr ih

theorem triedEntries_initial {B : Type} (env : Collab B) (l : List SubDir) :
    triedEntries env l <+: l := by
  induction l with
  | nil => exact List.prefix_refl _
  | cons a l ih =>
    unfold triedEntries
    split
    · exact ⟨l, rfl⟩
    · exact (List.prefix_cons_inj a).mpr ih

theorem attempted_open_scan {B : Type} (env : Collab B) (db : ossimDtedElevationDatabase B)
    (root : String) (entries : List SubDir) (hdir : env.isDir root = true)
    (hext : db.m_extension = "") (hread : env.readDir root = some entries) :
    attempted (open_ env db root).2.trace
      = attempted db.trace ++ (triedTiles (candidateFiles env entries)).map TileFile.path := by
  obtain ⟨_, _, _, _, tail, htail, htr⟩ := open_scan env db root entries hdir hext hread
  rw [htr, attempted_append, attempted_append,
    show (Event.isDir root :: Event.dirOpen root :: scanEvents env entries)
      = [Event.isDir root, Event.dirOpen root] ++ scanEvents env entries from rfl,
    attempted_append, attempted_scanEvents]
  rcases htail with h | h <;> rw [h] <;> simp [attempted]

/-- C7: when `open` is called on a root that is a directory while the extension is unset,
and `F` is the first candidate of the listing (files of the scanned longitude-pattern
subdirectories, within the caps, in enumeration order) that the tile handler opens, then
`open` returns true, the extension becomes "." followed by the extension of `F`, the mean
spacing becomes the spacing of the handler of `F`, the connection string is the root, and
the files the handler was asked to open are the candidates before `F`, then `F`, and no
file after it. -/
theorem open_first_match {B : Type} (env : Collab B) (db : ossimDtedElevationDatabase B)
    (root : String) (entries : List SubDir) (F : TileFile) (spacing : Dbl)
    (hdir : env.isDir root = true) (hext : db.m_extension = "")
    (hread : env.readDir root = some entries)
    (hF : (candidateFiles env entries).find? TileFile.opens = some F)
    (hsp : F.tile = some spacing) :
    (open_ env db root).1 = true
    ∧ (open_ env db root).2.m_extension = "." ++ fileExt F.path
    ∧ (open_ env db root).2.base.m_meanSpacing = spacing
    ∧ (open_ env db root).2.base.m_connectionString = root
    ∧ attempted (open_ env db root).2.trace
        = attempted db.trace
          ++ ((candidateFiles env entries).takeWhile (fun t => !t.opens)).map TileFile.path
          ++ [F.path] := by
  obtain ⟨h1, h2, h3, h4, _⟩ := open_scan env db root entries hdir hext hread
  have hatt := attempted_open_scan env db root entries hdir hext hread
  rw [hF] at h2 h3 h4
  rcases F with ⟨path, tile⟩
  simp only at hsp
  subst hsp
  refine ⟨?_, h2, h3, h4, ?_⟩
  · rw [h1, List.any_eq_true]
    exact ⟨_, List.mem_of_find?_eq_some hF, List.find?_some hF⟩
  · rw [hatt, triedTiles_of_find _ hF]
    simp

/-- C7 witness: the root `/dted` of the demo world holds exactly one longitude-pattern
subdirectory with one openable tile `n03.dt1`: `open` succeeds, the extension becomes
".dt1" and the mean spacing that tile's spacing. -/
theorem open_first_match_witness :
    (open_ demoEnv demoDb "/dted").1 = true
    ∧ (open_ demoEnv demoDb "/dted").2.m_extension = ".dt1"
    ∧ (open_ demoEnv demoDb "/dted").2.base.m_meanSpacing = Dbl.fin 90
    ∧ attempted (open_ demoEnv demoDb "/dted").2.trace = ["/dted/e005/n03.dt1"] := by
  have h := open_first_match demoEnv demoDb "/dted"
    [⟨"/dted/e005", some [⟨"/dted/e005/n03.dt1", some (Dbl.fin 90)⟩]⟩]
    ⟨"/dted/e005/n03.dt1", some (Dbl.fin 90)⟩ (Dbl.fin 90)
    (by decide) (by decide) (by decide) (by decide) rfl
  refine ⟨h.1, h.2.1.trans (by decide), h.2.2.1, h.2.2.2.2.trans (by decide)⟩

/-- C9: when `open` is called on a root that is a directory while the extension is unset,
the entries tested are a prefix of the first 10 entries of the listing, the directories
gone into are those of them that are directories named with 4 characters beginning with e,
E, w or W, and the files the handler is asked to open are a prefix of the candidates, at
most 10 per such directory; if no candidate opens, `open` returns false, the extension
stays empty, mean spacing and connection string are unchanged, and every candidate (none
beyond a cap) has been tried. -/
theorem open_scan_capped {B : Type} (env : Collab B) (db : ossimDtedElevationDatabase B)
    (root : String) (entries : List SubDir) (hdir : env.isDir root = true)
    (hext : db.m_extension = "") (hread : env.readDir root = some entries) :
    (examined (open_ env db root).2.trace
        = examined db.trace ++ root ::
            (match entries with
             | [] => [""]
             | _ :: _ => (triedEntries env (entries.take 10)).map SubDir.path)
      ∧ triedEntries env (entries.take 10) <+: entries.take 10
      ∧ (entries.take 10).length ≤ 10)
    ∧ entered (open_ env db root).2.trace
        = entered db.trace ++ root ::
            ((triedEntries env (entries.take 10)).filter
              (fun d => env.isDir d.path && lonPattern (fileOnly d.path))).map SubDir.path
    ∧ (attempted (open_ env db root).2.trace
          = attempted db.trace ++ (triedTiles (candidateFiles env entries)).map TileFile.path
        ∧ triedTiles (candidateFiles env entries) <+: candidateFiles env entries
        ∧ candidateFiles env entries
            = ((entries.take 10).filter
                (fun d => env.isDir d.path && lonPattern (fileOnly d.path))).flatMap
                  (fun d => (d.files.getD []).take 10)
        ∧ ∀ d : SubDir, ((d.files.getD []).take 10).length ≤ 10)
    ∧ ((∀ t ∈ candidateFiles env entries, t.tile = none) →
        (open_ env db root).1 = false
        ∧ (open_ env db root).2.m_extension = ""
        ∧ (open_ env db root).2.base.m_meanSpacing = db.base.m_meanSpacing
        ∧ (open_ env db root).2.base.m_connectionString = db.base.m_connectionString
        ∧ attempted (open_ env db root).2.trace
            = attempted db.trace ++ (candidateFiles env entries).map TileFile.path) := by
  obtain ⟨h1, h2, h3, h4, tail, htail, htr⟩ := open_scan env db root entries hdir hext hread
  have hatt := attempted_open_scan env db root entries hdir hext hread
  have hcons : (Event.isDir root :: Event.dirOpen root :: scanEvents env entries)
      = [Event.isDir root, Event.dirOpen root] ++ scanEvents env entries := rfl
  refine ⟨⟨?_, triedEntries_initial env _, ?_⟩, ?_, ⟨hatt, triedTiles_initial _, ?_, ?_⟩, ?_⟩
  · rw [htr, examined_append, examined_append, hcons, examined_append]
    have ht : examined tail = [] := by rcases htail with h | h <;> rw [h] <;> rfl
    rw [ht]
    cases entries with
    | nil => simp [examined, scanEvents]
    | cons d ds =>
      have : scanEvents env (d :: ds)
          = (triedEntries env ((d :: ds).take 10)).flatMap (entryEvents env) := rfl
      rw [this, examined_triedEntries]
      simp [examined]
  · simp
  · rw [htr, entered_append, entered_append, hcons, entered_append]
    have ht : entered tail = [] := by rcases htail with h | h <;> rw [h] <;> rfl
    rw [ht]
    cases entries with
    | nil => simp [entered, scanEvents, triedEntries]
    | cons d ds =>
      have : scanEvents env (d :: ds)
          = (triedEntries env ((d :: ds).take 10)).flatMap (entryEvents env) := rfl
      rw [this, entered_triedEntries]
      simp only [entered, List.filterMap, List.nil_append, List.singleton_append, List.append_nil]
      rfl
  · unfold candidateFiles
    generalize entries.take 10 = es
    induction es with
    | nil => rfl
    | cons d ds ih =>
      rw [List.flatMap_cons, ih]
      unfold entryFiles scanned
      cases hs : (env.isDir d.path && lonPattern (fileOnly d.path)) <;> simp [List.filter, hs]
  · intro d
    simp
  · intro hnone
    have hany : (candidateFiles env entries).any TileFile.opens = false := by
      rw [Bool.eq_false_iff]
      intro h
      rw [List.any_eq_true] at h
      obtain ⟨t, ht, hto⟩ := h
      rw [TileFile.opens, hnone t ht] at hto
      exact absurd hto (by simp)
    have hfind := find?_of_any_false _ _ hany
    rw [hfind, installTile_none] at h2 h3 h4
    refine ⟨h1.trans hany, h2.trans hext, h3, h4, ?_⟩
    rw [hatt, triedTiles_of_any_false _ hany]

/-- C9 witness: a root whose single longitude directory holds ten files that are no tiles
and, as eleventh, a tile: the scan stops at the cap, `open` fails and the extension stays
empty although the eleventh file would have opened. -/
theorem open_scan_capped_witness :
    (open_ cappedEnv demoDb "/dted").1 = false
    ∧ (open_ cappedEnv demoDb "/dted").2.m_extension = ""
    ∧ (attempted (open_ cappedEnv demoDb "/dted").2.trace).length = 10
    ∧ elevenFiles.any TileFile.opens = true := by
  have h := (open_scan_capped cappedEnv demoDb "/dted" [⟨"/dted/w122", some elevenFiles⟩]
    (by decide) (by decide) (by decide)).2.2.2 (by decide)
  refine ⟨h.1, h.2.1, ?_, by decide⟩
  rw [h.2.2.2.2]
  decide

/-! ## The extension invariant -/

theorem extensionOk_dot (s : String) : extensionOk ("." ++ s) :=
  Or.inr (by simp [String.data_append])

theorem extensionOk_installTile {B : Type} (db : ossimDtedElevationDatabase B) (dir : String)
    (o : Option TileFile) (h : extensionOk db.m_extension) :
    extensionOk (installTile db dir o).m_extension := by
  unfold installTile
  split
  · exact extensionOk_dot _
  · exact h

theorem inititializeExtension_ext {B : Type} (env : Collab B)
    (db : ossimDtedElevationDatabase B) (dir : String) (h : extensionOk db.m_extension) :
    extensionOk (inititializeExtension env db dir).2.m_extension := by
  cases hr : env.readDir dir with
  | none =>
    unfold inititializeExtension
    simp only [hr]
    exact h
  | some entries =>
    rw [inititializeExtension_eq env db dir entries hr]
    exact extensionOk_installTile db dir _ h

theorem openDtedDirectory_ext_eq {B : Type} (env : Collab B)
    (db : ossimDtedElevationDatabase B) (dir : String) :
    (openDtedDirectory env db dir).2.m_extension
      = if env.isDir dir then
          (if db.m_extension.length == 0 then
            (inititializeExtension env (db.log [Event.isDir dir]) dir).2.m_extension
           else db.m_extension)
        else db.m_extension := by
  unfold openDtedDirectory
  simp only []
  split
  · split
    · split <;> simp_all [log]
    · split <;> simp_all [log]
  · rfl

theorem open_ext {B : Type} (env : Collab B) (db : ossimDtedElevationDatabase B)
    (connectionString : String) (h : extensionOk db.m_extension) :
    extensionOk (open_ env db connectionString).2.m_extension := by
  unfold open_
  rw [openDtedDirectory_ext_eq]
  split
  · split
    · exact inititializeExtension_ext env _ _ h
    · exact h
  · exact h

theorem loadState_ext {B : Type} (env : Collab B) (db : ossimDtedElevationDatabase B)
    (kwl : ossimKeywordlist) (pfx : Option String) (h : extensionOk db.m_extension) :
    extensionOk (loadState env db kwl pfx).2.m_extension := by
  unfold loadState
  simp only []
  split
  · split
    · apply open_ext
      split <;> split <;> try split
      all_goals first
        | exact h
        | exact extensionOk_dot _
        | (rename_i hd; exact Or.inr (by simpa using hd))
    · exact h
  · exact h

theorem reachable_extensionOk {B : Type} (db : ossimDtedElevationDatabase B)
    (h : Reachable db) : extensionOk db.m_extension := by
  induction h with
  | fresh b => exact Or.inl rfl
  | load env db kwl pfx _ ih => exact loadState_ext env db kwl pfx ih
  | opened env db c _ ih => exact open_ext env db c ih
  | copied db _ ih => exact ih

theorem open_keeps_extension {B : Type} (env : Collab B) (db : ossimDtedElevationDatabase B)
    (c : String) (h : db.m_extension.length ≠ 0) :
    (open_ env db c).2.m_extension = db.m_extension ∧ (open_ env db c).1 = env.isDir c := by
  unfold open_
  refine ⟨?_, ?_⟩
  · rw [openDtedDirectory_ext_eq]
    simp [h]
  · unfold openDtedDirectory
    have h2 : (db.log [Event.isDir c]).m_extension.length ≠ 0 := h
    cases hd : env.isDir c <;> simp [h2]

/-- C10 (amended): in every state reachable from a freshly constructed database by `loadState`,
`open` and copy construction, whatever the preferences and directories hold, the extension
is empty or begins with a dot.  In particular, when `loadState` gets as far as the
preference lookup (the inherited state loaded, the connection string non-empty and
existing) and the "extension" preference has a non-empty value `v`, the extension stored
is `v` itself when `v` starts with a dot and "." followed by `v` otherwise, and the call
succeeds exactly when the connection string is a directory, dot or no dot. -/
theorem extension_invariant {B : Type} :
    (∀ db : ossimDtedElevationDatabase B, Reachable db → extensionOk db.m_extension)
    ∧ (∀ (env : Collab B) (db : ossimDtedElevationDatabase B) (kwl : ossimKeywordlist)
        (pfx : Option String),
        (env.findKey (pfx.getD "") "extension").length ≠ 0 →
        (env.baseLoadState db.base kwl pfx).2 = true →
        (env.baseLoadState db.base kwl pfx).1.m_connectionString.length ≠ 0 →
        env.pathExists (env.baseLoadState db.base kwl pfx).1.m_connectionString = true →
          (loadState env db kwl pfx).2.m_extension
              = (if (env.findKey (pfx.getD "") "extension").data.head? = some '.'
                 then env.findKey (pfx.getD "") "extension"
                 else "." ++ env.findKey (pfx.getD "") "extension")
          ∧ (loadState env db kwl pfx).1
              = env.isDir (env.baseLoadState db.base kwl pfx).1.m_connectionString) := by
  refine ⟨reachable_extensionOk, ?_⟩
  intro env db kwl pfx hv hb hc hp
  unfold loadState
  have hc2 : (({ db with base := (env.baseLoadState db.base kwl pfx).1 } :
      ossimDtedElevationDatabase B).log [Event.baseLoadState]).base.m_connectionString
      = (env.baseLoadState db.base kwl pfx).1.m_connectionString := rfl
  simp only [hb, if_true, hc2, hp, Bool.and_true, bne_iff_ne, ne_eq, hc, not_false_eq_true, hv]
  by_cases hd : (env.findKey (pfx.getD "") "extension").data.head? = some '.'
  · simp only [hd, not_true_eq_false, if_false, if_true]
    split
    · refine ⟨(open_keeps_extension env _ _ ?_).1, (open_keeps_extension env _ _ ?_).2⟩
      · exact hv
      · exact hv
    · refine ⟨(open_keeps_extension env _ _ ?_).1, (open_keeps_extension env _ _ ?_).2⟩
      · exact hv
      · exact hv
  · have hlen : ("." ++ env.findKey (pfx.getD "") "extension").length ≠ 0 := by
      rw [String.length_append]
      have : (".").length = 1 := rfl
      omega
    simp only [hd, not_false_eq_true, if_true, if_false]
    split
    · refine ⟨(open_keeps_extension env _ _ ?_).1, (open_keeps_extension env _ _ ?_).2⟩
      · exact hlen
      · exact hlen
    · refine ⟨(open_keeps_extension env _ _ ?_).1, (open_keeps_extension env _ _ ?_).2⟩
      · exact hlen
      · exact hlen

/-- C10 witness: loading the demo database in the demo world, whose "extension"
preference is "dt2": the state is reachable, the extension stored is ".dt2", and the load
succeeds. -/
theorem extension_invariant_witness :
    extensionOk (loadState demoEnv demoDb [] none).2.m_extension
    ∧ (loadState demoEnv demoDb [] none).2.m_extension = ".dt2"
    ∧ (loadState demoEnv demoDb [] none).1 = true := by
  have h1 := (@extension_invariant Unit).1 (loadState demoEnv demoDb [] none).2
    (Reachable.load demoEnv demoDb [] none (Reachable.fresh _))
  have h2 := (@extension_invariant Unit).2 demoEnv demoDb [] none
    (by decide) (by decide) (by decide) (by decide)
  exact ⟨h1, h2.1.trans (by decide), h2.2.trans (by decide)⟩

/-- C10 counterexample: the "extension" preference is "dt2" and the inherited state loads,
but the connection string names a path that does not exist: `loadState` returns false on
line 267 without looking the preference up, and the extension stays empty instead of
becoming ".dt2". -/
theorem loadState_skips_extension :
    demoEnv.findKey "" "extension" = "dt2"
    ∧ (demoEnv.baseLoadState missingRootDb.base [] none).2 = true
    ∧ demoEnv.pathExists "/missing" = false
    ∧ (loadState demoEnv missingRootDb [] none).1 = false
    ∧ (loadState demoEnv missingRootDb [] none).2.m_extension = ""
    ∧ (loadState demoEnv missingRootDb [] none).2.m_extension ≠ ".dt2" := by
  decide
